import Mathlib

/-
Verification of the TextCorrection repository (ReplaceText.py, srt_formatter.py).

The Python code is shallowly embedded: strings become `List Char`, Python's
mutable counters become explicit result components, and the per-format
processing functions become Lean functions mirroring the source line by line.
Lines read by `readlines` never contain an interior newline (universal
newlines mode splits on them), so regex `.` is modelled as matching any
character; all concrete inputs below respect this.
-/

namespace TextCorrection

/-- Shorthand turning a string literal into the character list it denotes. -/
def S (s : String) : List Char := s.data

/-- Characters removed by Python `str.strip()` with no arguments
(ASCII whitespace; the files processed here contain no exotic Unicode spaces). -/
def pyIsSpace (c : Char) : Bool :=
  c = ' ' || c = '\t' || c = '\n' || c = '\r' || c = '\x0b' || c = '\x0c'

/-- Python `str.strip()`: drop whitespace from both ends
(right end first; the two orders agree). -/
def pyStrip (l : List Char) : List Char :=
  ((l.reverse.dropWhile pyIsSpace).reverse).dropWhile pyIsSpace

/-- Python `line.rstrip('\n\r')` as used at ReplaceText.py:212. -/
def pyRstripNL (l : List Char) : List Char :=
  (l.reverse.dropWhile (fun c => c = '\n' || c = '\r')).reverse

/-- Python `str.isdigit()` (restricted to ASCII digits, which is what
subtitle cue indices contain): nonempty and all digits. -/
def pyIsdigit (l : List Char) : Bool :=
  !l.isEmpty && l.all Char.isDigit

/-- Worker for Python `str.replace`: scan left to right, at each position
replace a leftmost occurrence of `old` and resume after it.  The fuel
argument starts at the length of the scanned list and strictly bounds the
number of steps (each step consumes at least one character when `old` is
nonempty), making the recursion structural; the fuel-exhausted branch is
unreachable for the initial fuel supplied by `pyReplace`. -/
def pyReplaceGo (old new : List Char) : Nat → List Char → List Char
  | _, [] => []
  | 0, s => s
  | fuel + 1, c :: rest =>
    if old.isPrefixOf (c :: rest) then
      new ++ pyReplaceGo old new fuel ((c :: rest).drop old.length)
    else c :: pyReplaceGo old new fuel rest

/-- Python `s.replace(old, new)`: replace every non-overlapping occurrence,
leftmost first.  For the empty pattern Python inserts `new` at every
character boundary ("ab".replace("", "X") == "XaXbX"). -/
def pyReplace (s old new : List Char) : List Char :=
  if old = [] then new ++ s.flatMap (fun c => c :: new)
  else pyReplaceGo old new s.length s

/-- Python's substring test `old in s`: `old` occurs contiguously in `s`
(the empty string occurs in every string, as in Python). -/
def pyInStr (old : List Char) : List Char → Bool
  | [] => old.isEmpty
  | c :: rest => old.isPrefixOf (c :: rest) || pyInStr old rest

/-- The substitution loop inlined four times in the source
(ReplaceText.py:107-112, 152-157, 188-193, 219-224): each rule in table
order is applied by replace-all whenever its `old` text occurs in the
current text state, and any such occurrence marks the result modified.
The run-wide per-rule occurrence counters are not modelled (no claim
concerns them). -/
def apply_replacements : List (List Char × List Char) → List Char → List Char × Bool
  | [], s => (s, false)
  | (old, nw) :: rs, s =>
    if pyInStr old s then
      ((apply_replacements rs (pyReplace s old nw)).1, true)
    else apply_replacements rs s

/-- TIMESTAMP_PATTERNS['lrc'] at ReplaceText.py:81, the regex
`^(\[\d{2}:\d{2}(.\d{2})?\])(.*)$` applied with `re.match`.  The `.` in the
optional group is an unescaped regex dot and so matches any character, and
the group is greedy: the longer alternative (separator + two digits before
`]`) is tried first, then the bare `[dd:dd]` form.  On success returns the
matched token (group 1) and the remainder of the line (group 3). -/
def lrc_timestamp_match (s : List Char) : Option (List Char × List Char) :=
  match s with
  | '[' :: d1 :: d2 :: ':' :: d3 :: d4 :: rest =>
    if d1.isDigit && d2.isDigit && d3.isDigit && d4.isDigit then
      match rest with
      | c :: e1 :: e2 :: ']' :: tail =>
        if e1.isDigit && e2.isDigit then
          some ('[' :: d1 :: d2 :: ':' :: d3 :: d4 :: c :: e1 :: e2 :: [']'], tail)
        else if c = ']' then
          some ('[' :: d1 :: d2 :: ':' :: d3 :: d4 :: [']'], e1 :: e2 :: ']' :: tail)
        else none
      | ']' :: tail => some ('[' :: d1 :: d2 :: ':' :: d3 :: d4 :: [']'], tail)
      | _ => none
    else none
  | _ => none

/-- process_lrc_content (ReplaceText.py:92-122).  Returns the emitted line
(`none` when the line is dropped), the per-line modified flag, and the
amount added to the run's `empty_line_count`. -/
def process_lrc_content (line : List Char) (replacements : List (List Char × List Char)) :
    Option (List Char) × Bool × Nat :=
  let original_line := pyStrip line
  if original_line = [] then (none, false, 0)
  else
    match lrc_timestamp_match original_line with
    | some (timestamp, rest) =>
      let p := apply_replacements replacements (pyStrip rest)
      if p.1 = [] then (none, true, 1)
      else (some (timestamp ++ p.1 ++ ['\n']), p.2, 0)
    | none => (some (original_line ++ ['\n']), false, 0)

/-- TIMESTAMP_PATTERNS['srt'] at ReplaceText.py:82, the regex
`^(\d{2}:\d{2}:\d{2},\d{3} --> \d{2}:\d{2}:\d{2},\d{3})$`: an exact
29-character shape. -/
def srt_time_match (s : List Char) : Bool :=
  match s with
  | [a1, a2, ':', b1, b2, ':', c1, c2, ',', d1, d2, d3,
     ' ', '-', '-', '>', ' ',
     e1, e2, ':', f1, f2, ':', g1, g2, ',', h1, h2, h3] =>
    a1.isDigit && a2.isDigit && b1.isDigit && b2.isDigit && c1.isDigit && c2.isDigit &&
    d1.isDigit && d2.isDigit && d3.isDigit && e1.isDigit && e2.isDigit && f1.isDigit &&
    f2.isDigit && g1.isDigit && g2.isDigit && h1.isDigit && h2.isDigit && h3.isDigit
  | _ => false

/-- process_srt_content (ReplaceText.py:124-167).  Returns the processed
lines, the modified flag, and the amount added to `empty_line_count`.
The source's while loop walks the lines front to back accumulating into
`processed_lines`, `modified` and the counter; the recursion below produces
the same list, the same flag (Boolean or of the per-line contributions) and
the same counter total. -/
def process_srt_content (lines : List (List Char))
    (replacements : List (List Char × List Char)) : List (List Char) × Bool × Nat :=
  match lines with
  | [] => ([], false, 0)
  | l :: rest =>
    let line := pyStrip l
    let r := process_srt_content rest replacements
    if line = [] then r
    else if pyIsdigit line then ((line ++ ['\n']) :: r.1, r.2.1, r.2.2)
    else if srt_time_match line then ((line ++ ['\n']) :: r.1, r.2.1, r.2.2)
    else
      let p := apply_replacements replacements line
      if pyStrip p.1 ≠ [] then ((p.1 ++ ['\n']) :: r.1, p.2 || r.2.1, r.2.2)
      else (r.1, true, r.2.2 + 1)

/-- First comma of the list together with the characters before and after
it; `none` when the list has no comma.  Used for the lazy `.+?,` group of
the dialogue pattern. -/
def splitFirstComma : List Char → Option (List Char × List Char)
  | [] => none
  | ',' :: t => some ([], t)
  | c :: t =>
    match splitFirstComma t with
    | some (a, b) => some (c :: a, b)
    | none => none

/-- TIMESTAMP_PATTERNS['ass'] at ReplaceText.py:84, the regex
`^(Dialogue: .+?,)(.*)$`: the literal prefix `Dialogue: `, then a lazy
one-or-more up to the first comma that leaves the group nonempty, then the
rest of the line.  Returns (group 1, group 2). -/
def ass_dialogue_match (s : List Char) : Option (List Char × List Char) :=
  if (S "Dialogue: ").isPrefixOf s then
    match s.drop 10 with
    | c :: t =>
      match splitFirstComma t with
      | some (mid, post) => some (S "Dialogue: " ++ c :: mid ++ [','], post)
      | none => none
    | [] => none
  else none

/-- process_ass_content (ReplaceText.py:169-204): returns the processed
lines, the modified flag, and the amount added to `empty_line_count`. -/
def process_ass_content (lines : List (List Char))
    (replacements : List (List Char × List Char)) : List (List Char) × Bool × Nat :=
  match lines with
  | [] => ([], false, 0)
  | l :: rest =>
    let original_line := pyStrip l
    let r := process_ass_content rest replacements
    if original_line = [] then r
    else
      match ass_dialogue_match original_line with
      | some (dialogue_pre, dialogue_text) =>
        let p := apply_replacements replacements dialogue_text
        if pyStrip p.1 ≠ [] then
          ((dialogue_pre ++ p.1 ++ ['\n']) :: r.1, p.2 || r.2.1, r.2.2)
        else (r.1, true, r.2.2 + 1)
      | none => ((original_line ++ ['\n']) :: r.1, r.2.1, r.2.2)

/-- process_txt_content (ReplaceText.py:206-232): returns the processed
lines, the modified flag, and the amount added to `empty_line_count`. -/
def process_txt_content (lines : List (List Char))
    (replacements : List (List Char × List Char)) : List (List Char) × Bool × Nat :=
  match lines with
  | [] => ([], false, 0)
  | l :: rest =>
    let original_line := pyRstripNL l
    let r := process_txt_content rest replacements
    if pyStrip original_line = [] then r
    else
      let p := apply_replacements replacements original_line
      if pyStrip p.1 ≠ [] then ((p.1 ++ ['\n']) :: r.1, p.2 || r.2.1, r.2.2)
      else (r.1, true, r.2.2 + 1)

/-- The per-line LRC loop of process_text_file (ReplaceText.py:259-265):
collects the emitted lines and ors the per-line modified flags. -/
def process_lrc_lines (lines : List (List Char))
    (replacements : List (List Char × List Char)) : List (List Char) × Bool × Nat :=
  match lines with
  | [] => ([], false, 0)
  | l :: rest =>
    let x := process_lrc_content l replacements
    let r := process_lrc_lines rest replacements
    (match x.1 with
     | some o => o :: r.1
     | none => r.1,
     x.2.1 || r.2.1, x.2.2 + r.2.2)

/-- File types the walker dispatches on (SUPPORTED_EXTENSIONS plus the
fallback branch of process_text_file). -/
inductive FileType where
  | lrc | srt | ass | ssa | txt | vtt | other
deriving DecidableEq

/-- The dispatch of process_text_file (ReplaceText.py:258-278): choose the
per-format processor from the file type; txt, vtt and anything else share
the plain-text path. -/
def dispatch_content (ft : FileType) (lines : List (List Char))
    (replacements : List (List Char × List Char)) : List (List Char) × Bool × Nat :=
  match ft with
  | .lrc => process_lrc_lines lines replacements
  | .srt => process_srt_content lines replacements
  | .ass | .ssa => process_ass_content lines replacements
  | _ => process_txt_content lines replacements

/-- Outcome of a Python expression that may raise. -/
inductive PyResult (α : Type) where
  | ok : α → PyResult α
  | exn : String → PyResult α
deriving DecidableEq

/-- process_text_file (ReplaceText.py:234-288) seen from its caller: the
whole body sits in a `try` whose bare `except Exception` returns False, so
a failed read (or any other failure, here modelled as an exceptional read
result) is swallowed and the function reports the file as unmodified.  The
result is a `PyResult` to record that the function itself never lets an
exception escape. -/
def process_text_file (readResult : PyResult (List (List Char))) (ft : FileType)
    (replacements : List (List Char × List Char)) : PyResult Bool :=
  match readResult with
  | .exn _ => .ok false
  | .ok lines => .ok (dispatch_content ft lines replacements).2.1

/-- The file-level view of process_text_file for a successfully read file:
the content found on disk afterwards (the processed lines when the modified
flag is set, the untouched original otherwise) together with the modified
flag it returns. -/
def process_text_file_content (ft : FileType) (lines : List (List Char))
    (replacements : List (List Char × List Char)) : List (List Char) × Bool :=
  let r := dispatch_content ft lines replacements
  if r.2.1 then (r.1, true) else (lines, false)

/-- The run statistics kept by process_directory (ReplaceText.py:302-307);
`file_types` is not modelled (no claim concerns it). -/
structure RunStats where
  total_files : Nat
  modified_files : Nat
  error_files : Nat
deriving DecidableEq

/-- One iteration of the per-file loop of process_directory
(ReplaceText.py:319-336): count the file, call process_text_file inside a
`try` that counts an escaping exception in `error_files`, and count the
file as modified when the call returns True. -/
def process_directory_step (replacements : List (List Char × List Char))
    (st : RunStats) (f : FileType × PyResult (List (List Char))) : RunStats :=
  let st1 : RunStats := { st with total_files := st.total_files + 1 }
  match process_text_file f.2 f.1 replacements with
  | .ok true => { st1 with modified_files := st1.modified_files + 1 }
  | .ok false => st1
  | .exn _ => { st1 with error_files := st1.error_files + 1 }

/-- The per-file loop of process_directory (ReplaceText.py:319-336) over
the supported files found by the walk, each given as the file's type and
the outcome of reading it. -/
def process_directory (files : List (FileType × PyResult (List (List Char))))
    (replacements : List (List Char × List Char)) : RunStats :=
  files.foldl (process_directory_step replacements) ⟨0, 0, 0⟩

/-- The substitution `re.sub(r'(\n\d+\n)', r'\n\1', content)` of
srt_formatter.py:9: scan left to right; at each newline followed by one or
more digits and another newline, emit an extra newline before the match and
resume after its trailing newline.  The fuel starts at the length of the
scanned list and strictly bounds the number of steps, making the recursion
structural; the fuel-exhausted branch is unreachable for the initial fuel
supplied by `srtSub`. -/
def srtSubGo : Nat → List Char → List Char
  | _, [] => []
  | 0, s => s
  | fuel + 1, c :: rest =>
    if c = '\n' then
      if rest.takeWhile Char.isDigit ≠ [] ∧ (rest.dropWhile Char.isDigit).head? = some '\n' then
        '\n' :: '\n' :: rest.takeWhile Char.isDigit
          ++ '\n' :: srtSubGo fuel (rest.dropWhile Char.isDigit).tail
      else '\n' :: srtSubGo fuel rest
    else c :: srtSubGo fuel rest

/-- The regex substitution pass of srt_formatter.py:9. -/
def srtSub (s : List Char) : List Char := srtSubGo s.length s

/-- format_srt_file (srt_formatter.py:4-16) at the content level: run the
substitution, then append a newline unless the result already ends with a
blank line. -/
def format_srt_content (content : List Char) : List Char :=
  let formatted := srtSub content
  if (S "\n\n").isSuffixOf formatted then formatted else formatted ++ ['\n']

/-- Modelled from the spec: the timestamp-token grammar the specification
(and claim C4) describes for LRC lines — `[MM:SS.xx]` with a mandatory
two-digit fractional part whose separator is `.` or `:` and never any
other character.  This is the spec's grammar, stated for comparison with
`lrc_timestamp_match`, which embeds the source's regex. -/
def spec_lrc_timestamp_match (s : List Char) : Option (List Char × List Char) :=
  match s with
  | '[' :: d1 :: d2 :: ':' :: d3 :: d4 :: c :: e1 :: e2 :: ']' :: tail =>
    if d1.isDigit && d2.isDigit && d3.isDigit && d4.isDigit &&
       (c = '.' || c = ':') && e1.isDigit && e2.isDigit then
      some ('[' :: d1 :: d2 :: ':' :: d3 :: d4 :: c :: e1 :: e2 :: [']'], tail)
    else none
  | _ => none

/-! ## Theorems -/

/-- Helper for C1: the walk's fold never touches `error_files`, because
process_text_file returns `.ok` on every input (its bare `except` swallows
the failure). -/
theorem foldl_step_error_files (replacements : List (List Char × List Char)) :
    ∀ (files : List (FileType × PyResult (List (List Char)))) (st : RunStats),
      (files.foldl (process_directory_step replacements) st).error_files = st.error_files := by
  intro files
  induction files with
  | nil => intro st; rfl
  | cons f rest ih =>
    intro st
    rw [List.foldl_cons, ih]
    rcases f with ⟨ft, rd⟩
    cases rd with
    | ok lines =>
      simp only [process_directory_step, process_text_file]
      cases (dispatch_content ft lines replacements).2.1 <;> rfl
    | exn e => rfl

/-- C1: the claim says a per-file failure increments the run's error-file
count.  In the code, process_text_file's bare `except Exception` (lines
287-288) swallows every failure and returns False, so the error-counting
branch of process_directory (lines 334-336) is unreachable: a run over a
single file whose read raises leaves `error_files` at 0 (the file is merely
not counted as modified), and `error_files` is 0 after every run. -/
theorem c1_error_files_never_incremented :
    (process_directory [(FileType.txt, PyResult.exn "IOError")] []).error_files = 0 ∧
    (process_directory [(FileType.txt, PyResult.exn "IOError")] []).total_files = 1 ∧
    (process_directory [(FileType.txt, PyResult.exn "IOError")] []).modified_files = 0 ∧
    ∀ (files : List (FileType × PyResult (List (List Char))))
      (replacements : List (List Char × List Char)),
      (process_directory files replacements).error_files = 0 := by
  refine ⟨rfl, rfl, rfl, ?_⟩
  intro files replacements
  exact foldl_step_error_files replacements files ⟨0, 0, 0⟩

/-- C6: rules are applied sequentially in table insertion order, each
rule's replace-all output feeding the next rule's matching: the rules
[("a","b"), ("b","c")] applied in that order to "a" yield "c" (the second
rule matches the text produced by the first), with the modified flag set. -/
theorem c6_sequential_rule_application :
    apply_replacements [(S "a", S "b"), (S "b", S "c")] (S "a") = (S "c", true) := by
  decide

/-- C2 counterexample: with the single rule "aa" → "a", processing the
plain-text content "aaa" a first time writes "aa"; the second run with the
same table rewrites it to "a" and reports the file modified, so the second
run's output differs from the first run's output. -/
theorem c2_counterexample :
    (process_text_file_content .txt
        (process_text_file_content .txt [S "aaa\n"] [(S "aa", S "a")]).1
        [(S "aa", S "a")]).1
      ≠ (process_text_file_content .txt [S "aaa\n"] [(S "aa", S "a")]).1 ∧
    (process_text_file_content .txt
        (process_text_file_content .txt [S "aaa\n"] [(S "aa", S "a")]).1
        [(S "aa", S "a")]).2 = true := by
  decide

/-- C3 counterexample: the rule ("a","a"), whose old and new strings are
equal, leaves the text "a" unchanged yet sets the modified flag, because
the source sets the flag whenever the old text merely occurs (line 153:
`if old_text in subtitle_text`), not when the replacement changes it. -/
theorem c3_counterexample :
    (apply_replacements [(S "a", S "a")] (S "a")).1 = S "a" ∧
    (apply_replacements [(S "a", S "a")] (S "a")).2 = true := by
  decide

/-- C4 counterexample: the line "[00:01-23]xxx" does not fit the claimed
grammar (its sub-second separator is '-', not '.' or ':'), so by the claim
it should be an informational line emitted verbatim and never substituted;
the code's regex, whose `.` is an unescaped any-character dot, accepts it
as a timestamp and substitutes the payload. -/
theorem c4_counterexample :
    spec_lrc_timestamp_match (S "[00:01-23]xxx") = none ∧
    process_lrc_content (S "[00:01-23]xxx\n") [(S "xxx", S "yyy")]
      = (some (S "[00:01-23]yyy\n"), true, 0) ∧
    (S "[00:01-23]yyy\n") ≠ (S "[00:01-23]xxx\n") := by
  decide

/-- C5 counterexample: the formatting pass is not idempotent.  On
"a\n1\nb\n" one application yields "a\n\n1\nb\n\n"; applying it again
inserts a further blank line before the cue-index line, yielding
"a\n\n\n1\nb\n\n". -/
theorem c5_counterexample :
    format_srt_content (format_srt_content (S "a\n1\nb\n"))
      ≠ format_srt_content (S "a\n1\nb\n") := by
  decide

/-- C9 counterexample: an LRC line without a timestamp token is emitted
stripped of its leading and trailing whitespace (plus a trailing newline),
not byte-identical to its input text. -/
theorem c9_counterexample :
    process_lrc_content (S "  hello  \n") [] = (some (S "hello\n"), false, 0) ∧
    (S "hello\n") ≠ (S "  hello  \n") ∧ (S "hello\n") ≠ (S "  hello  ") := by
  decide

/-- C3 (amended): whenever the substitution engine's modified flag is
false, no rule fired and the text is returned unchanged — so a changed
text always sets the flag; but (see the counterexample) the flag really
records that some rule's old text occurred, and a rule with equal old and
new strings sets it without changing the text. -/
theorem c3_flag_false_implies_unchanged :
    ∀ (rules : List (List Char × List Char)) (s : List Char),
      (apply_replacements rules s).2 = false → (apply_replacements rules s).1 = s := by
  intro rules
  induction rules with
  | nil => intro s _; rfl
  | cons r rs ih =>
    intro s h
    rcases r with ⟨old, nw⟩
    by_cases hin : pyInStr old s = true
    · exact absurd h (by simp [apply_replacements, hin])
    · have hin' : pyInStr old s = false := by
        cases hpy : pyInStr old s
        · rfl
        · exact absurd hpy hin
      simp only [apply_replacements, hin', Bool.false_eq_true, if_false] at h ⊢
      exact ih s h

/-- Witness for C3: on the text "ab" the rule table [("x","y")] leaves the
flag false, and the theorem then forces the output text to equal the
input. -/
theorem c3_witness :
    (apply_replacements [(S "x", S "y")] (S "ab")).2 = false ∧
    (apply_replacements [(S "x", S "y")] (S "ab")).1 = S "ab" :=
  ⟨by decide, c3_flag_false_implies_unchanged [(S "x", S "y")] (S "ab") (by decide)⟩

/-- Unfolding equation for process_lrc_content. -/
theorem process_lrc_content_def (line : List Char) (rules : List (List Char × List Char)) :
    process_lrc_content line rules =
      (if pyStrip line = [] then (none, false, 0)
       else
         match lrc_timestamp_match (pyStrip line) with
         | some (timestamp, rest) =>
           if (apply_replacements rules (pyStrip rest)).1 = [] then (none, true, 1)
           else (some (timestamp ++ (apply_replacements rules (pyStrip rest)).1 ++ ['\n']),
             (apply_replacements rules (pyStrip rest)).2, 0)
         | none => (some (pyStrip line ++ ['\n']), false, 0)) := rfl

/-- Unfolding equation for process_srt_content on a nonempty line list. -/
theorem process_srt_content_cons (l : List Char) (rest : List (List Char))
    (rules : List (List Char × List Char)) :
    process_srt_content (l :: rest) rules =
      (if pyStrip l = [] then process_srt_content rest rules
       else if pyIsdigit (pyStrip l) then
         ((pyStrip l ++ ['\n']) :: (process_srt_content rest rules).1,
           (process_srt_content rest rules).2.1, (process_srt_content rest rules).2.2)
       else if srt_time_match (pyStrip l) then
         ((pyStrip l ++ ['\n']) :: (process_srt_content rest rules).1,
           (process_srt_content rest rules).2.1, (process_srt_content rest rules).2.2)
       else if pyStrip (apply_replacements rules (pyStrip l)).1 ≠ [] then
         (((apply_replacements rules (pyStrip l)).1 ++ ['\n'])
             :: (process_srt_content rest rules).1,
           ((apply_replacements rules (pyStrip l)).2 || (process_srt_content rest rules).2.1),
           (process_srt_content rest rules).2.2)
       else ((process_srt_content rest rules).1, true,
         (process_srt_content rest rules).2.2 + 1)) := rfl

/-- Unfolding equation for process_ass_content on a nonempty line list. -/
theorem process_ass_content_cons (l : List Char) (rest : List (List Char))
    (rules : List (List Char × List Char)) :
    process_ass_content (l :: rest) rules =
      (if pyStrip l = [] then process_ass_content rest rules
       else
         match ass_dialogue_match (pyStrip l) with
         | some (dialogue_pre, dialogue_text) =>
           if pyStrip (apply_replacements rules dialogue_text).1 ≠ [] then
             ((dialogue_pre ++ (apply_replacements rules dialogue_text).1 ++ ['\n'])
                 :: (process_ass_content rest rules).1,
               ((apply_replacements rules dialogue_text).2 || (process_ass_content rest rules).2.1),
               (process_ass_content rest rules).2.2)
           else ((process_ass_content rest rules).1, true,
             (process_ass_content rest rules).2.2 + 1)
         | none =>
           ((pyStrip l ++ ['\n']) :: (process_ass_content rest rules).1,
             (process_ass_content rest rules).2.1,
             (process_ass_content rest rules).2.2)) := rfl

/-- Unfolding equation for process_txt_content on a nonempty line list. -/
theorem process_txt_content_cons (l : List Char) (rest : List (List Char))
    (rules : List (List Char × List Char)) :
    process_txt_content (l :: rest) rules =
      (if pyStrip (pyRstripNL l) = [] then process_txt_content rest rules
       else if pyStrip (apply_replacements rules (pyRstripNL l)).1 ≠ [] then
         (((apply_replacements rules (pyRstripNL l)).1 ++ ['\n'])
             :: (process_txt_content rest rules).1,
           ((apply_replacements rules (pyRstripNL l)).2 || (process_txt_content rest rules).2.1),
           (process_txt_content rest rules).2.2)
       else ((process_txt_content rest rules).1, true,
         (process_txt_content rest rules).2.2 + 1)) := rfl

/-- Nonempty shape of a digit-only line. -/
theorem pyIsdigit_ne_nil {s : List Char} (h : pyIsdigit s = true) : s ≠ [] := by
  intro hnil
  subst hnil
  simp [pyIsdigit] at h

/-- Nonempty shape of an SRT time-range line. -/
theorem srt_time_match_ne_nil {s : List Char} (h : srt_time_match s = true) : s ≠ [] := by
  intro hnil
  subst hnil
  exact absurd h (by decide)

/-- C7: in SRT processing, a line whose stripped text is all digits (a cue
index) or matches the HH:MM:SS,mmm --> HH:MM:SS,mmm pattern is emitted
as-is (never altered by substitution, whatever the rule table), while any
other non-blank line has the substitution engine applied to its full
stripped text (and is dropped, counted, when the result strips to
nothing). -/
theorem c7_srt_structural_preserved :
    ∀ (l : List Char) (rest : List (List Char)) (rules : List (List Char × List Char)),
      ((pyIsdigit (pyStrip l) = true ∨ srt_time_match (pyStrip l) = true) →
        process_srt_content (l :: rest) rules =
          ((pyStrip l ++ ['\n']) :: (process_srt_content rest rules).1,
            (process_srt_content rest rules).2.1,
            (process_srt_content rest rules).2.2)) ∧
      (pyStrip l ≠ [] → pyIsdigit (pyStrip l) = false → srt_time_match (pyStrip l) = false →
        process_srt_content (l :: rest) rules =
          (if pyStrip (apply_replacements rules (pyStrip l)).1 ≠ [] then
            (((apply_replacements rules (pyStrip l)).1 ++ ['\n'])
                :: (process_srt_content rest rules).1,
              ((apply_replacements rules (pyStrip l)).2 || (process_srt_content rest rules).2.1),
              (process_srt_content rest rules).2.2)
          else
            ((process_srt_content rest rules).1, true,
              (process_srt_content rest rules).2.2 + 1))) := by
  intro l rest rules
  rw [process_srt_content_cons]
  constructor
  · intro hstruct
    rcases hstruct with hdig | htime
    · rw [if_neg (pyIsdigit_ne_nil hdig), hdig, if_pos rfl]
    · rw [if_neg (srt_time_match_ne_nil htime), htime]
      by_cases hdig : pyIsdigit (pyStrip l) = true
      · rw [hdig, if_pos rfl]
      · rw [Bool.not_eq_true] at hdig
        rw [hdig]
        simp only [Bool.false_eq_true, if_false, if_true]
  · intro hne hdig htime
    rw [if_neg hne, hdig, htime]
    simp only [Bool.false_eq_true, if_false]

/-- Witness for C7: the cue-index line "12" is passed through in front of a
payload line that the rule table rewrites. -/
theorem c7_witness :
    (pyIsdigit (pyStrip (S "12\n")) = true ∨ srt_time_match (pyStrip (S "12\n")) = true) ∧
    process_srt_content [S "12\n", S "xa\n"] [(S "x", S "y")]
      = ((pyStrip (S "12\n") ++ ['\n']) :: (process_srt_content [S "xa\n"] [(S "x", S "y")]).1,
          (process_srt_content [S "xa\n"] [(S "x", S "y")]).2.1,
          (process_srt_content [S "xa\n"] [(S "x", S "y")]).2.2) :=
  ⟨Or.inl (by decide),
   (c7_srt_structural_preserved (S "12\n") [S "xa\n"] [(S "x", S "y")]).1 (Or.inl (by decide))⟩

/-- C8: an LRC line that carries a timestamp token and whose payload is the
empty string after all substitution rules have been applied is dropped
entirely — timestamp included — with the modified flag set and the blank
counter incremented by exactly one. -/
theorem c8_emptied_payload_dropped :
    ∀ (line : List Char) (rules : List (List Char × List Char)) (ts rest : List Char),
      pyStrip line ≠ [] →
      lrc_timestamp_match (pyStrip line) = some (ts, rest) →
      (apply_replacements rules (pyStrip rest)).1 = [] →
      process_lrc_content line rules = (none, true, 1) := by
  intro line rules ts rest h1 h2 h3
  rw [process_lrc_content_def, if_neg h1, h2]
  simp only [h3, if_pos]

/-- Witness for C8: the spec's own example — "[00:05.00]xxx" with the rule
xxx → "" is dropped whole and counts one blank line. -/
theorem c8_witness :
    pyStrip (S "[00:05.00]xxx\n") ≠ [] ∧
    process_lrc_content (S "[00:05.00]xxx\n") [(S "xxx", S "")] = (none, true, 1) :=
  ⟨by decide,
   c8_emptied_payload_dropped (S "[00:05.00]xxx\n") [(S "xxx", S "")]
     (S "[00:05.00]") (S "xxx") (by decide) (by decide) (by decide)⟩

/-- The code's LRC token grammar, positive side: four digits around the
mandatory ':', then ANY single separator character followed by two digits
before the closing bracket, matches (greedily) with the remainder as
payload. -/
theorem lrc_timestamp_match_long (d1 d2 d3 d4 sep e1 e2 : Char) (tail : List Char)
    (hd1 : d1.isDigit = true) (hd2 : d2.isDigit = true) (hd3 : d3.isDigit = true)
    (hd4 : d4.isDigit = true) (he1 : e1.isDigit = true) (he2 : e2.isDigit = true) :
    lrc_timestamp_match ('[' :: d1 :: d2 :: ':' :: d3 :: d4 :: sep :: e1 :: e2 :: ']' :: tail)
      = some ('[' :: d1 :: d2 :: ':' :: d3 :: d4 :: sep :: e1 :: e2 :: [']'], tail) := by
  unfold lrc_timestamp_match
  simp [hd1, hd2, hd3, hd4, he1, he2]

/-- C4 (amended): the token grammar the code implements is `[DD:DD]` with
an optional group of one arbitrary separator character (the regex's
unescaped dot) plus exactly two digits before `]` — so '-' or any other
character separates fractional seconds just as well as '.' or ':'.  For a
line of that shape, substitution is applied only to the remainder after the
token (the token is reproduced verbatim, or the whole line is dropped and
counted when the substituted payload is empty); a non-blank line the
pattern rejects is emitted stripped, without any substitution. -/
theorem c4_timestamp_grammar :
    (∀ (d1 d2 d3 d4 sep e1 e2 : Char) (tail : List Char)
      (rules : List (List Char × List Char)),
      d1.isDigit = true → d2.isDigit = true → d3.isDigit = true → d4.isDigit = true →
      e1.isDigit = true → e2.isDigit = true →
      pyStrip ('[' :: d1 :: d2 :: ':' :: d3 :: d4 :: sep :: e1 :: e2 :: ']' :: tail)
        = '[' :: d1 :: d2 :: ':' :: d3 :: d4 :: sep :: e1 :: e2 :: ']' :: tail →
      process_lrc_content ('[' :: d1 :: d2 :: ':' :: d3 :: d4 :: sep :: e1 :: e2 :: ']' :: tail)
          rules =
        (if (apply_replacements rules (pyStrip tail)).1 = [] then (none, true, 1)
         else
           (some (('[' :: d1 :: d2 :: ':' :: d3 :: d4 :: sep :: e1 :: e2 :: [']'])
               ++ (apply_replacements rules (pyStrip tail)).1 ++ ['\n']),
             (apply_replacements rules (pyStrip tail)).2, 0))) ∧
    (∀ (line : List Char) (rules : List (List Char × List Char)),
      pyStrip line ≠ [] → lrc_timestamp_match (pyStrip line) = none →
      process_lrc_content line rules = (some (pyStrip line ++ ['\n']), false, 0)) := by
  constructor
  · intro d1 d2 d3 d4 sep e1 e2 tail rules hd1 hd2 hd3 hd4 he1 he2 hstrip
    rw [process_lrc_content_def, hstrip,
      if_neg (List.cons_ne_nil '[' (d1 :: d2 :: ':' :: d3 :: d4 :: sep :: e1 :: e2 :: ']' :: tail)),
      lrc_timestamp_match_long d1 d2 d3 d4 sep e1 e2 tail hd1 hd2 hd3 hd4 he1 he2]
  · intro line rules h1 h2
    rw [process_lrc_content_def, if_neg h1, h2]

/-- Witness for C4: with separator '-' (which the claim's grammar forbids)
and rule xxx → yyy, the payload is substituted and the token kept intact. -/
theorem c4_witness :
    ('0' : Char).isDigit = true ∧
    pyStrip (S "[00:01-23]xxx") = S "[00:01-23]xxx" ∧
    process_lrc_content (S "[00:01-23]xxx") [(S "xxx", S "yyy")] =
      (if (apply_replacements [(S "xxx", S "yyy")] (pyStrip (S "xxx"))).1 = [] then (none, true, 1)
       else
         (some (('[' :: '0' :: '0' :: ':' :: '0' :: '1' :: '-' :: '2' :: '3' :: [']'])
             ++ (apply_replacements [(S "xxx", S "yyy")] (pyStrip (S "xxx"))).1 ++ ['\n']),
           (apply_replacements [(S "xxx", S "yyy")] (pyStrip (S "xxx"))).2, 0)) :=
  ⟨by decide, by decide,
   c4_timestamp_grammar.1 '0' '0' '0' '1' '-' '2' '3' (S "xxx") [(S "xxx", S "yyy")]
     (by decide) (by decide) (by decide) (by decide) (by decide) (by decide) (by decide)⟩

/-- C9 (amended): non-substitutable lines — LRC lines without a timestamp
token and ASS/SSA non-dialogue lines — are emitted with their text
unaltered by substitution (for every rule table), but stripped of leading
and trailing whitespace and terminated with a newline, not byte-identical
to the raw input line. -/
theorem c9_stripped_verbatim :
    ∀ (line : List Char) (rules : List (List Char × List Char)),
      (pyStrip line ≠ [] → lrc_timestamp_match (pyStrip line) = none →
        process_lrc_content line rules = (some (pyStrip line ++ ['\n']), false, 0)) ∧
      (∀ rest, pyStrip line ≠ [] → ass_dialogue_match (pyStrip line) = none →
        process_ass_content (line :: rest) rules =
          ((pyStrip line ++ ['\n']) :: (process_ass_content rest rules).1,
            (process_ass_content rest rules).2.1,
            (process_ass_content rest rules).2.2)) := by
  intro line rules
  constructor
  · intro h1 h2
    rw [process_lrc_content_def, if_neg h1, h2]
  · intro rest h1 h2
    rw [process_ass_content_cons, if_neg h1, h2]

/-- Witness for C9: the metadata line "artist: foo" has no LRC timestamp
and is no ASS dialogue line, and comes out stripped plus newline in both
parsers. -/
theorem c9_witness :
    pyStrip (S " artist: foo \n") ≠ [] ∧
    lrc_timestamp_match (pyStrip (S " artist: foo \n")) = none ∧
    ass_dialogue_match (pyStrip (S " artist: foo \n")) = none ∧
    process_lrc_content (S " artist: foo \n") [(S "foo", S "bar")]
      = (some (pyStrip (S " artist: foo \n") ++ ['\n']), false, 0) ∧
    process_ass_content [S " artist: foo \n"] [(S "foo", S "bar")]
      = ((pyStrip (S " artist: foo \n") ++ ['\n'])
            :: (process_ass_content [] [(S "foo", S "bar")]).1,
          (process_ass_content [] [(S "foo", S "bar")]).2.1,
          (process_ass_content [] [(S "foo", S "bar")]).2.2) :=
  ⟨by decide, by decide, by decide,
   (c9_stripped_verbatim (S " artist: foo \n") [(S "foo", S "bar")]).1 (by decide) (by decide),
   (c9_stripped_verbatim (S " artist: foo \n") [(S "foo", S "bar")]).2 [] (by decide) (by decide)⟩

/-- A list of whitespace characters strips to nothing. -/
theorem pyStrip_eq_nil_of_space {l : List Char} (h : ∀ c ∈ l, pyIsSpace c = true) :
    pyStrip l = [] := by
  unfold pyStrip
  have h1 : l.reverse.dropWhile pyIsSpace = [] :=
    List.dropWhile_eq_nil_iff.mpr (fun c hc => h c (List.mem_reverse.mp hc))
  rw [h1]
  rfl

/-- Stripping trailing newline characters shortens the line from the right:
the result is a prefix of the original. -/
theorem pyRstripNL_front (l : List Char) : pyRstripNL l <+: l := by
  unfold pyRstripNL
  conv_rhs => rw [← List.reverse_reverse l]
  exact List.reverse_prefix.mpr (List.dropWhile_suffix _)

/-- C10 (amended): for all four formats, an input line consisting only of
whitespace is dropped silently — the blank counter is untouched and the
modified flag is not set (LRC reports (none, false, 0); the other three
processors return exactly the result for the remaining lines).  The
claim's further corollary — that a file whose only difference from its
processed form is the removal of originally blank lines is never
rewritten — does not follow and is false (see the counterexample): the
modified flag records rule occurrence, not change, so a rule that occurs
but leaves the text unchanged triggers a rewrite whose only textual
effect is the blank-line removal. -/
theorem c10_blank_lines_silent :
    ∀ (l : List Char) (rest : List (List Char)) (rules : List (List Char × List Char)),
      (∀ c ∈ l, pyIsSpace c = true) →
      process_lrc_content l rules = (none, false, 0) ∧
      process_srt_content (l :: rest) rules = process_srt_content rest rules ∧
      process_ass_content (l :: rest) rules = process_ass_content rest rules ∧
      process_txt_content (l :: rest) rules = process_txt_content rest rules := by
  intro l rest rules h
  have hs : pyStrip l = [] := pyStrip_eq_nil_of_space h
  have hrs : pyStrip (pyRstripNL l) = [] :=
    pyStrip_eq_nil_of_space (fun c hc => h c ((pyRstripNL_front l).subset hc))
  refine ⟨?_, ?_, ?_, ?_⟩
  · rw [process_lrc_content_def, if_pos hs]
  · rw [process_srt_content_cons, if_pos hs]
  · rw [process_ass_content_cons, if_pos hs]
  · rw [process_txt_content_cons, if_pos hrs]

/-- Witness for C10: a whitespace-only line vanishes without touching the
flag or the counter in all four formats. -/
theorem c10_witness :
    (∀ c ∈ S "  \n", pyIsSpace c = true) ∧
    process_lrc_content (S "  \n") [(S "a", S "b")] = (none, false, 0) ∧
    process_srt_content [S "  \n", S "ax\n"] [(S "a", S "b")]
      = process_srt_content [S "ax\n"] [(S "a", S "b")] ∧
    process_ass_content [S "  \n", S "ax\n"] [(S "a", S "b")]
      = process_ass_content [S "ax\n"] [(S "a", S "b")] ∧
    process_txt_content [S "  \n", S "ax\n"] [(S "a", S "b")]
      = process_txt_content [S "ax\n"] [(S "a", S "b")] :=
  ⟨by decide,
   (c10_blank_lines_silent (S "  \n") [S "ax\n"] [(S "a", S "b")] (by decide)).1,
   (c10_blank_lines_silent (S "  \n") [S "ax\n"] [(S "a", S "b")] (by decide)).2.1,
   (c10_blank_lines_silent (S "  \n") [S "ax\n"] [(S "a", S "b")] (by decide)).2.2.1,
   (c10_blank_lines_silent (S "  \n") [S "ax\n"] [(S "a", S "b")] (by decide)).2.2.2⟩

/-- C10 counterexample: the claim's corollary that a file differing from
its processed form only by removed blank lines is never rewritten is
false.  With the rule ("a","a") — whose occurrence sets the modified flag
while its replacement changes nothing — the plain-text file ["a\n", " \n"]
processes to the lines ["a\n"], differing from the input only by the
dropped whitespace-only line, yet the modified flag is true and the file
is rewritten. -/
theorem c10_counterexample :
    (∀ c ∈ S " \n", pyIsSpace c = true) ∧
    process_text_file_content .txt [S "a\n", S " \n"] [(S "a", S "a")]
      = ([S "a\n"], true) := by
  decide

/-- Python's `in` agrees with contiguous-sublist containment. -/
theorem pyInStr_iff {old : List Char} :
    ∀ {s : List Char}, pyInStr old s = true ↔ old <:+: s := by
  intro s
  induction s with
  | nil =>
    simp only [pyInStr, List.isEmpty_iff, List.infix_nil]
  | cons c rest ih =>
    simp only [pyInStr, Bool.or_eq_true, List.isPrefixOf_iff_prefix, ih,
      List.infix_cons_iff]

/-- If a pattern does not occur in a line, it does not occur in any prefix
of that line. -/
theorem pyInStr_false_mono {old r l : List Char} (hpre : r <+: l)
    (h : pyInStr old l = false) : pyInStr old r = false := by
  cases hr : pyInStr old r
  · rfl
  · have : old <:+: l := (pyInStr_iff.mp hr).trans hpre.isInfix
    rw [pyInStr_iff.mpr this] at h
    cases h

/-- When no rule's old text occurs in the text, the engine returns the text
unchanged with a false flag. -/
theorem apply_replacements_no_occ :
    ∀ (rules : List (List Char × List Char)) (s : List Char),
      (∀ r ∈ rules, pyInStr r.1 s = false) → apply_replacements rules s = (s, false) := by
  intro rules
  induction rules with
  | nil => intro s _; rfl
  | cons r rs ih =>
    intro s h
    rcases r with ⟨old, nw⟩
    have h0 : pyInStr old s = false := h (old, nw) (List.mem_cons_self _ _)
    simp only [apply_replacements, h0, Bool.false_eq_true, if_false]
    exact ih s (fun q hq => h q (List.mem_cons_of_mem _ hq))

/-- Auxiliary: dropping with a weaker predicate after a stronger one
changes nothing once the stronger predicate covers the weaker one. -/
theorem dropWhile_dropWhile_of_imp {p q : Char → Bool}
    (himp : ∀ c, q c = true → p c = true) :
    ∀ (l : List Char), (l.dropWhile q).dropWhile p = l.dropWhile p := by
  intro l
  induction l with
  | nil => rfl
  | cons c rest ih =>
    by_cases hq : q c = true
    · rw [List.dropWhile_cons_of_pos hq, ih, List.dropWhile_cons_of_pos (himp c hq)]
    · rw [List.dropWhile_cons]
      simp only [hq, Bool.false_eq_true, if_false]

/-- Stripping trailing newline characters before a full strip changes
nothing. -/
theorem pyStrip_pyRstripNL (l : List Char) : pyStrip (pyRstripNL l) = pyStrip l := by
  unfold pyStrip pyRstripNL
  rw [List.reverse_reverse,
    dropWhile_dropWhile_of_imp (p := pyIsSpace) (q := fun c => c = '\n' || c = '\r')
      (by intro c hc
          rcases Bool.or_eq_true _ _ |>.mp hc with h | h
          · rw [decide_eq_true_eq] at h; subst h; rfl
          · rw [decide_eq_true_eq] at h; subst h; rfl)
      l.reverse]

/-- A trailing newline disappears under strip. -/
theorem pyStrip_append_newline (t : List Char) : pyStrip (t ++ ['\n']) = pyStrip t := by
  unfold pyStrip
  rw [List.reverse_append]
  simp only [List.reverse_cons, List.reverse_nil, List.nil_append, List.singleton_append,
    List.dropWhile_cons_of_pos (show pyIsSpace '\n' = true from rfl)]

/-- Every line that plain-text processing emits is a nonblank payload
terminated by exactly the newline the writer appends. -/
theorem process_txt_output_shape :
    ∀ (lines : List (List Char)) (rules : List (List Char × List Char)) (l : List Char),
      l ∈ (process_txt_content lines rules).1 → ∃ t, l = t ++ ['\n'] ∧ pyStrip t ≠ [] := by
  intro lines
  induction lines with
  | nil => intro rules l h; exact absurd h (List.not_mem_nil l)
  | cons x rest ih =>
    intro rules l h
    rw [process_txt_content_cons] at h
    by_cases h1 : pyStrip (pyRstripNL x) = []
    · rw [if_pos h1] at h
      exact ih rules l h
    · rw [if_neg h1] at h
      by_cases h2 : pyStrip (apply_replacements rules (pyRstripNL x)).1 ≠ []
      · rw [if_pos h2] at h
        rcases List.mem_cons.mp h with heq | hmem
        · exact ⟨(apply_replacements rules (pyRstripNL x)).1, heq, h2⟩
        · exact ih rules l hmem
      · rw [if_neg h2] at h
        exact ih rules l h

/-- On a list of nonblank newline-terminated lines none of whose text
contains any rule's old string, plain-text processing leaves the modified
flag false. -/
theorem process_txt_flag_false :
    ∀ (lines : List (List Char)) (rules : List (List Char × List Char)),
      (∀ l ∈ lines, ∃ t, l = t ++ ['\n'] ∧ pyStrip t ≠ []) →
      (∀ r ∈ rules, ∀ l ∈ lines, pyInStr r.1 l = false) →
      (process_txt_content lines rules).2.1 = false := by
  intro lines
  induction lines with
  | nil => intro rules _ _; rfl
  | cons x rest ih =>
    intro rules hshape hocc
    rcases hshape x (List.mem_cons_self _ _) with ⟨t, hx, ht⟩
    have hs1 : pyStrip (pyRstripNL x) ≠ [] := by
      rw [pyStrip_pyRstripNL, hx, pyStrip_append_newline]
      exact ht
    have hnofire : apply_replacements rules (pyRstripNL x) = (pyRstripNL x, false) :=
      apply_replacements_no_occ rules (pyRstripNL x)
        (fun r hr =>
          pyInStr_false_mono (pyRstripNL_front x)
            (hocc r hr x (List.mem_cons_self _ _)))
    have htail : (process_txt_content rest rules).2.1 = false :=
      ih rules (fun l hl => hshape l (List.mem_cons_of_mem _ hl))
        (fun r hr l hl => hocc r hr l (List.mem_cons_of_mem _ hl))
    rw [process_txt_content_cons, if_neg hs1, hnofire]
    simp only [hs1, ne_eq, not_false_iff, if_true, htail, Bool.or_false]

/-- Unfolding equation for the plain-text path of process_text_file. -/
theorem process_text_file_content_txt (lines : List (List Char))
    (rules : List (List Char × List Char)) :
    process_text_file_content .txt lines rules =
      (if (process_txt_content lines rules).2.1 then ((process_txt_content lines rules).1, true)
       else (lines, false)) := rfl

/-- C2 (amended): processing a plain-text file twice with the same table
is idempotent only under the proviso that no rule's old string occurs in
the first run's on-disk result: then the second run reports the file
unmodified and leaves the content identical.  Without the proviso a second
run can change the output again and report it modified (see the
counterexample: rule "aa" → "a" on "aaa" gives "aa", then "a"). -/
theorem c2_idempotent_when_no_rule_applies :
    ∀ (lines : List (List Char)) (rules : List (List Char × List Char)),
      (∀ r ∈ rules, ∀ l ∈ (process_text_file_content .txt lines rules).1,
        pyInStr r.1 l = false) →
      process_text_file_content .txt ((process_text_file_content .txt lines rules).1) rules
        = ((process_text_file_content .txt lines rules).1, false) := by
  intro lines rules hocc
  by_cases hf : (process_txt_content lines rules).2.1 = true
  · have hout : (process_text_file_content .txt lines rules).1
        = (process_txt_content lines rules).1 := by
      rw [process_text_file_content_txt, if_pos hf]
    rw [hout] at hocc ⊢
    have hflag : (process_txt_content ((process_txt_content lines rules).1) rules).2.1 = false :=
      process_txt_flag_false _ rules (process_txt_output_shape lines rules) hocc
    rw [process_text_file_content_txt, hflag]
    simp only [Bool.false_eq_true, if_false]
  · rw [Bool.not_eq_true] at hf
    have hout : (process_text_file_content .txt lines rules).1 = lines := by
      rw [process_text_file_content_txt, hf]
      simp only [Bool.false_eq_true, if_false]
    rw [hout] at hocc ⊢
    rw [process_text_file_content_txt, hf]
    simp only [Bool.false_eq_true, if_false]

/-- Witness for C2: content "ax" with rule "x" → "y" is rewritten to "ay"
on the first run; no rule's old text occurs in "ay", so the second run
reports unmodified and changes nothing. -/
theorem c2_witness :
    (∀ r ∈ [(S "x", S "y")],
      ∀ l ∈ (process_text_file_content .txt [S "ax\n"] [(S "x", S "y")]).1,
      pyInStr r.1 l = false) ∧
    process_text_file_content .txt
        ((process_text_file_content .txt [S "ax\n"] [(S "x", S "y")]).1) [(S "x", S "y")]
      = ((process_text_file_content .txt [S "ax\n"] [(S "x", S "y")]).1, false) :=
  ⟨by decide, c2_idempotent_when_no_rule_applies [S "ax\n"] [(S "x", S "y")] (by decide)⟩

/-- Unfolding equation for srtSubGo on a nonempty list with nonzero fuel. -/
theorem srtSubGo_cons (fuel : Nat) (c : Char) (rest : List Char) :
    srtSubGo (fuel + 1) (c :: rest) =
      (if c = '\n' then
        if rest.takeWhile Char.isDigit ≠ []
            ∧ (rest.dropWhile Char.isDigit).head? = some '\n' then
          '\n' :: '\n' :: rest.takeWhile Char.isDigit
            ++ '\n' :: srtSubGo fuel (rest.dropWhile Char.isDigit).tail
        else '\n' :: srtSubGo fuel rest
      else c :: srtSubGo fuel rest) := rfl

/-- The fuel of srtSubGo is irrelevant once it is at least the length of
the scanned list (each step consumes at least one character). -/
theorem srtSubGo_fuel_irrel :
    ∀ (fuel1 fuel2 : Nat) (s : List Char),
      s.length ≤ fuel1 → s.length ≤ fuel2 → srtSubGo fuel1 s = srtSubGo fuel2 s := by
  intro fuel1
  induction fuel1 with
  | zero =>
    intro fuel2 s h1 _
    have hs : s = [] := List.length_eq_zero.mp (Nat.le_zero.mp h1)
    subst hs
    cases fuel2 <;> rfl
  | succ n ih =>
    intro fuel2 s h1 h2
    cases s with
    | nil => cases fuel2 <;> rfl
    | cons c rest =>
      cases fuel2 with
      | zero => simp at h2
      | succ m =>
        rw [srtSubGo_cons, srtSubGo_cons]
        have hr : rest.length ≤ n := by
          simp only [List.length_cons] at h1
          omega
        have hr2 : rest.length ≤ m := by
          simp only [List.length_cons] at h2
          omega
        by_cases hc : c = '\n'
        · rw [if_pos hc, if_pos hc]
          by_cases hmatch : rest.takeWhile Char.isDigit ≠ []
              ∧ (rest.dropWhile Char.isDigit).head? = some '\n'
          · rw [if_pos hmatch, if_pos hmatch]
            have hdrop : (rest.dropWhile Char.isDigit).length ≤ rest.length :=
              (List.dropWhile_sublist _).length_le
            have htail : (rest.dropWhile Char.isDigit).tail.length ≤ rest.length := by
              cases hd : rest.dropWhile Char.isDigit with
              | nil => simp
              | cons d ds =>
                rw [hd] at hdrop
                simp only [List.length_cons] at hdrop
                simp only [List.tail_cons]
                omega
            rw [ih m _ (by omega) (by omega)]
          · rw [if_neg hmatch, if_neg hmatch, ih m rest hr hr2]
        · rw [if_neg hc, if_neg hc, ih m rest hr hr2]

/-- Scanning a run of digits followed by a newline splits exactly there. -/
theorem takeWhile_digits_append (ds tail : List Char) (h : ∀ c ∈ ds, c.isDigit = true) :
    (ds ++ '\n' :: tail).takeWhile Char.isDigit = ds ∧
    (ds ++ '\n' :: tail).dropWhile Char.isDigit = '\n' :: tail := by
  induction ds with
  | nil =>
    constructor
    · rw [List.nil_append, List.takeWhile_cons]
      simp
    · rw [List.nil_append, List.dropWhile_cons]
      simp
  | cons d ds ih =>
    have hd : d.isDigit = true := h d (List.mem_cons_self _ _)
    have ihh := ih (fun c hc => h c (List.mem_cons_of_mem _ hc))
    constructor
    · rw [List.cons_append, List.takeWhile_cons, if_pos hd, ihh.1]
    · rw [List.cons_append, List.dropWhile_cons_of_pos hd, ihh.2]

/-- C5 (amended): the formatting pass is not idempotent (see the
counterexample) — on every application it inserts one further blank line
before each newline-preceded digit-only line and rescans after the match's
trailing newline; separately, it appends a single newline exactly when the
substituted content does not already end with a blank line. -/
theorem c5_blank_insertion :
    (∀ (ds tail : List Char), ds ≠ [] → (∀ c ∈ ds, c.isDigit = true) →
      srtSub ('\n' :: ds ++ '\n' :: tail)
        = '\n' :: '\n' :: ds ++ '\n' :: srtSub tail) ∧
    (∀ content : List Char, (S "\n\n").isSuffixOf (srtSub content) = false →
      format_srt_content content = srtSub content ++ ['\n']) ∧
    (∀ content : List Char, (S "\n\n").isSuffixOf (srtSub content) = true →
      format_srt_content content = srtSub content) := by
  refine ⟨?_, ?_, ?_⟩
  · intro ds tail hne hdig
    show srtSubGo ('\n' :: ds ++ '\n' :: tail).length ('\n' :: ds ++ '\n' :: tail) = _
    have hlen : ('\n' :: ds ++ '\n' :: tail).length = (ds.length + tail.length + 1) + 1 := by
      simp only [List.cons_append, List.length_cons, List.length_append]
      omega
    rw [hlen, List.cons_append, srtSubGo_cons, if_pos rfl]
    have htd := takeWhile_digits_append ds tail hdig
    rw [htd.1, htd.2, if_pos ⟨hne, rfl⟩, List.tail_cons,
      srtSubGo_fuel_irrel (ds.length + tail.length + 1) tail.length tail (by omega) le_rfl]
    rfl
  · intro content h
    show (if (S "\n\n").isSuffixOf (srtSub content) = true then srtSub content
      else srtSub content ++ ['\n']) = _
    rw [h]
    simp
  · intro content h
    show (if (S "\n\n").isSuffixOf (srtSub content) = true then srtSub content
      else srtSub content ++ ['\n']) = _
    rw [h]
    simp

/-- Witness for C5: before the cue-index line "1" of "\n1\nx\n" one more
blank line appears on each application. -/
theorem c5_witness :
    ((S "1") ≠ [] ∧ ∀ c ∈ S "1", c.isDigit = true) ∧
    srtSub ('\n' :: S "1" ++ '\n' :: S "x\n")
      = '\n' :: '\n' :: S "1" ++ '\n' :: srtSub (S "x\n") :=
  ⟨⟨by decide, by decide⟩,
   c5_blank_insertion.1 (S "1") (S "x\n") (by decide) (by decide)⟩

end TextCorrection
